import Mathlib

/-!
Shallow embedding of the dynamic-linking introspection layer
(`elftools/elf/dynamic.py`) and of the PLT hook-detection script
(`scripts/coreplt.py`).

Python integers are modelled as `Int` (arbitrary precision, Python 2
semantics: `/` on ints is floor division, modelled with `Int.fdiv`).
Unbounded `itertools.count()` loops are modelled with an explicit fuel
argument: the Python loop's behaviour on an input is the value the
fuel-indexed function takes for every sufficiently large fuel, and
`none` means the loop has not terminated within the given fuel.
Byte-stream reads (`struct_parse`, `stream.read`) are modelled as total
functions from stream offsets to parsed records.
-/

/-- Decidable equality for `Except`, used to evaluate embedded fallible code
on concrete inputs. -/
instance exceptDecEq {ε α : Type} [DecidableEq ε] [DecidableEq α] :
    DecidableEq (Except ε α) := fun a b =>
  match a, b with
  | Except.ok x, Except.ok y =>
      if h : x = y then isTrue (by rw [h]) else
        isFalse (by intro hc; cases hc; exact h rfl)
  | Except.error x, Except.error y =>
      if h : x = y then isTrue (by rw [h]) else
        isFalse (by intro hc; cases hc; exact h rfl)
  | Except.ok _, Except.error _ => isFalse (by intro hc; cases hc)
  | Except.error _, Except.ok _ => isFalse (by intro hc; cases hc)

/-- Dynamic tag kinds (subset of `ENUM_D_TAG` used by the embedded code);
`other n` stands for any further numeric tag value. -/
inductive DTag
  | DT_NULL
  | DT_NEEDED
  | DT_SONAME
  | DT_RPATH
  | DT_RUNPATH
  | DT_SUNW_FILTER
  | DT_STRTAB
  | DT_SYMTAB
  | DT_REL
  | DT_RELA
  | DT_JMPREL
  | DT_RELSZ
  | DT_RELASZ
  | DT_PLTRELSZ
  | DT_PLTREL
  | other : Nat → DTag
deriving DecidableEq

/-- Raw dynamic-table entry, the result of `struct_parse(Elf_Dyn, ...)`:
a tag and its 64/32-bit value (`d_ptr`/`d_val`, one union field). -/
structure DynEntry where
  d_tag : DTag
  d_ptr : Int
deriving DecidableEq

/-- Python-level error outcomes of the embedded code paths; `elfError`
stands for the `ELFError` exceptions `DynamicTag.__init__` raises. -/
inductive PyErr
  | typeError
  | attributeError
  | indexOutOfRange
  | elfError
deriving DecidableEq

/-- Entry stream of one dynamic table: `d n` is the record that
`struct_parse(Elf_Dyn, stream, offset + n * tagsize)` yields at index `n`.
The byte stream is unbounded, so the function is total. -/
def DynStream : Type := Nat → DynEntry

/-- Scan loop of `Dynamic.num_tags` (dynamic.py lines 226-230): starting at
index `j`, walk `itertools.count()` until a `DT_NULL` entry and return its
index; `none` models a loop still running when the fuel is exhausted. -/
def scanNull (d : DynStream) : Nat → Nat → Option Nat
  | _, 0 => none
  | j, fuel+1 =>
      if (d j).d_tag = DTag.DT_NULL then some j else scanNull d (j+1) fuel

/-- Number of records the scan loop parses from the stream within the given
fuel: one read per iteration, stopping after the `DT_NULL` read. -/
def scanNullReads (d : DynStream) : Nat → Nat → Nat
  | _, 0 => 0
  | j, fuel+1 =>
      if (d j).d_tag = DTag.DT_NULL then 1 else 1 + scanNullReads d (j+1) fuel

/-- Tag cache of a `Dynamic` instance (`self._cache`), an association list
from looked-up tag names to their entries. -/
def TagCache : Type := List (DTag × DynEntry)

/-- Lookup in the `_cache` dictionary. -/
def cacheGet : TagCache → DTag → Option DynEntry
  | [], _ => none
  | (t, e) :: rest, name => if t = name then some e else cacheGet rest name

/-- Scan loop of `Dynamic.__getitem__` (dynamic.py lines 183-198): parse
entries in index order; a `DT_NULL` entry breaks the loop and the method
raises `KeyError(name)` (modelled as `Except.error name`); a matching entry
is returned.  The `DT_NULL` test comes before the name comparison, exactly
as in the source. -/
def lookupScan (d : DynStream) (name : DTag) : Nat → Nat → Option (Except DTag DynEntry)
  | _, 0 => none
  | j, fuel+1 =>
      if (d j).d_tag = DTag.DT_NULL then some (Except.error name)
      else if (d j).d_tag = name then some (Except.ok (d j))
      else lookupScan d name (j+1) fuel

/-- Full `Dynamic.__getitem__`: consult the `_cache` first; on a scan hit,
store the entry in the cache.  Returns the entry together with the updated
cache. -/
def lookupTag (d : DynStream) (cache : TagCache) (name : DTag) (fuel : Nat) :
    Option (Except DTag (DynEntry × TagCache)) :=
  match cacheGet cache name with
  | some e => some (Except.ok (e, cache))
  | none =>
      match lookupScan d name 0 fuel with
      | none => none
      | some (Except.error err) => some (Except.error err)
      | some (Except.ok e) => some (Except.ok (e, (name, e) :: cache))

/-- Concrete two-entry dynamic table: a `DT_NEEDED` entry at index 0 and the
`DT_NULL` terminator at index 1. -/
def dW : DynStream := fun n =>
  if n = 0 then ⟨DTag.DT_NEEDED, 1⟩ else ⟨DTag.DT_NULL, 0⟩

/-- Concrete corrupted dynamic table whose stream contains no `DT_NULL`
terminator at any index. -/
def dynNoNull : DynStream := fun _ => ⟨DTag.DT_NEEDED, 1⟩

/-- Loadable segment as seen through the excluded container layer: the
fields of a program header used by the embedded code
(`p_vaddr`, `p_offset`, `p_memsz`). -/
structure SegmentM where
  p_vaddr : Int
  p_offset : Int
  p_memsz : Int
deriving DecidableEq

/-- Modelled from the spec: the excluded container layer's "way to find the
segment covering a given virtual address" (`elffile.get_segment_by_address`),
returning the first segment of the list whose
`[virtual_address_start, virtual_address_start + size)` range contains the
address, and `none` when no segment covers it (`dynamic.py` tests the result
for falsiness). -/
def getSegmentByAddress (segs : List SegmentM) (a : Int) : Option SegmentM :=
  segs.find? (fun s => decide (s.p_vaddr ≤ a ∧ a < s.p_vaddr + s.p_memsz))

/-- Per-image context of the excluded `ELFFile` collaborator: the runtime
load bias passed on the command line, the minimum link-time virtual address
(`get_min_vaddr`), the loadable segments, and the record sizes of the
`Elf_Rela` / `Elf_Rel` struct layouts for the image's ELF class. -/
structure ELFCtx where
  loadbase : Int
  minVaddr : Int
  segments : List SegmentM
  relaSizeof : Int
  relSizeof : Int
deriving DecidableEq

/-- Modelled from the spec: the Address Translator contract
`to_file_offset(vaddr)`, which fails when no segment of the list contains
`vaddr` and otherwise returns
`segment.file_offset + (vaddr - segment.virtual_address_start)`.  Declared
for comparison with the offset computations the source actually performs. -/
def to_file_offset (segs : List SegmentM) (vaddr : Int) : Except PyErr Int :=
  match getSegmentByAddress segs vaddr with
  | none => Except.error PyErr.typeError
  | some s => Except.ok (s.p_offset + (vaddr - s.p_vaddr))

/-- Offset at which the string path of `DynamicTag.__init__` (dynamic.py
lines 88-102) reads the C string for a `_HANDLED_TAGS` entry: the segment
containing `strtab` (the `d_ptr` of `DT_STRTAB`) is located and the method
fails like the source's `ELFError` when there is none; with a nonzero load
bias the offset is `strtab - (p_vaddr - min_vaddr) - loadbase + p_offset`,
otherwise it is `strtab` itself; the entry's `d_ptr` is then added.  The
`parse_cstring_from_stream` call at the returned offset is abstracted
away. -/
def handledTagOffset (e : ELFCtx) (strtab dptr : Int) : Except PyErr Int :=
  match getSegmentByAddress e.segments strtab with
  | none => Except.error PyErr.typeError
  | some dynstr =>
      let off := if e.loadbase ≠ 0
        then strtab - (dynstr.p_vaddr - e.minVaddr) - e.loadbase + dynstr.p_offset
        else strtab
      Except.ok (off + dptr)

/-- Relocation record, the `Relocation` fields read by the hook detector
(`r_offset` and `r_info_sym`). -/
structure RelocR where
  r_offset : Int
  r_info_sym : Int
deriving DecidableEq

/-- State of a `DynamicRelocations` instance (dynamic.py lines 20-25):
`base` is the tag's `d_ptr` minus the load bias, used directly as a stream
offset; `size` is the companion size tag's value; `recordSize` is
`struct.sizeof()`. -/
structure DynRel where
  base : Int
  size : Int
  recordSize : Int
deriving DecidableEq

/-- Constructor `DynamicRelocations.__init__`: `self.base -= elffile.loadbase`
with no segment lookup. -/
def mkDynRel (dPtr size recordSize loadbase : Int) : DynRel :=
  ⟨dPtr - loadbase, size, recordSize⟩

/-- Method `DynamicRelocations.num_relocations`: `self.size / self.struct.sizeof()`
under Python 2 integer division, which is floor division (`Int.fdiv`). -/
def numRelocations (r : DynRel) : Int :=
  Int.fdiv r.size r.recordSize

/-- Record that `DynamicRelocations.get_relocation` parses: one fixed-size
record at `base + n * sizeof`, where `stream` models
`struct_parse(struct, elffile.stream, stream_pos)`. -/
def getRelocationRecord (stream : Int → RelocR) (r : DynRel) (n : Int) : RelocR :=
  stream (r.base + n * r.recordSize)

/-- Method `DynamicRelocations.get_relocation` (dynamic.py lines 30-36): the
source body is exactly the unconditional record read, so the embedding
always returns `Except.ok`; the error type only makes the spec's
`IndexOutOfRange` outcome statable. -/
def getRelocation (stream : Int → RelocR) (r : DynRel) (n : Int) : Except PyErr RelocR :=
  Except.ok (getRelocationRecord stream r n)

/-- Method `DynamicRelocations.iter_relocations`:
`for i in range(self.num_relocations()): yield self.get_relocation(i)`. -/
def iterRelocations (stream : Int → RelocR) (r : DynRel) : List RelocR :=
  (List.range (numRelocations r).toNat).map
    (fun n => getRelocationRecord stream r (Int.ofNat n))

/-- Relocation record layouts distinguished by the resolver. -/
inductive RelStruct
  | rela
  | rel
deriving DecidableEq

/-- Layout tag chosen by `DynamicTag.__init__` for a `_REL_TAGS` entry
(dynamic.py lines 105-112): for `DT_JMPREL` the source sets `tag = 'DT_RELA'`
unconditionally (its own comment reads `FIXME: consult DT_PLTREL`); other
relocation tags keep their own name. -/
def jmprelLayout (t : DTag) : DTag :=
  if t = DTag.DT_JMPREL then DTag.DT_RELA else t

/-- Size companion tag chosen by the same branch: `DT_PLTRELSZ` for
`DT_JMPREL`, otherwise the tag's own name with the `SZ` suffix. -/
def relSizeTagOf (t : DTag) : DTag :=
  if t = DTag.DT_JMPREL then DTag.DT_PLTRELSZ
  else if t = DTag.DT_RELA then DTag.DT_RELASZ
  else DTag.DT_RELSZ

/-- Struct chosen from the layout tag: `Elf_Rela` when the layout tag is
`DT_RELA`, else `Elf_Rel` (dynamic.py lines 114-117). -/
def relStructOf (t : DTag) : RelStruct :=
  if t = DTag.DT_RELA then RelStruct.rela else RelStruct.rel

/-- Relocation path of `DynamicTag.__init__` (dynamic.py lines 105-126):
choose the layout and size-companion tags, look the size tag up in the owning
table (a missing companion raises, carried here as `Except.error`), and build
the `DynamicRelocations` state from `(entry.d_ptr, size)` and the chosen
struct's size.  Returns the chosen struct alongside for inspection. -/
def resolveRelTag (e : ELFCtx) (d : DynStream) (fuel : Nat) (entry : DynEntry) :
    Option (Except DTag (RelStruct × DynRel)) :=
  let rstruct := relStructOf (jmprelLayout entry.d_tag)
  let recSize := if rstruct = RelStruct.rela then e.relaSizeof else e.relSizeof
  match lookupScan d (relSizeTagOf entry.d_tag) 0 fuel with
  | none => none
  | some (Except.error err) => some (Except.error err)
  | some (Except.ok se) =>
      some (Except.ok (rstruct, mkDynRel entry.d_ptr se.d_ptr recSize e.loadbase))

/-- Membership in `DynamicTag._HANDLED_TAGS`, the string-resolved tags. -/
def isHandledTag : DTag → Bool
  | DTag.DT_NEEDED | DTag.DT_RPATH | DTag.DT_RUNPATH
  | DTag.DT_SONAME | DTag.DT_SUNW_FILTER => true
  | _ => false

/-- Membership in `DynamicTag._REL_TAGS`, the relocation-table tags. -/
def isRelTag : DTag → Bool
  | DTag.DT_REL | DTag.DT_RELA | DTag.DT_JMPREL => true
  | _ => false

/-- Attribute that `DynamicTag.__init__` attaches to an entry: `plain` for
tags outside the special sets (no resolution performed); `strO off` for
`_HANDLED_TAGS` entries (the stream offset of the C-string read, the read
itself abstracted as in `handledTagOffset`); `relo` for `_REL_TAGS` entries
(chosen struct and `DynamicRelocations` state); `symt base strtabOff` for
`DT_SYMTAB` (the `DynamicSymbols` base `d_ptr - loadbase` and the resolved
string-table offset). -/
inductive ResolvedAttr
  | plain
  | strO : Int → ResolvedAttr
  | relo : RelStruct → DynRel → ResolvedAttr
  | symt : Int → Int → ResolvedAttr
deriving DecidableEq

/-- Constructor `DynamicTag.__init__` (dynamic.py lines 84-140), which runs
eagerly inside `Dynamic.get_tag` for every parsed entry.  A `_HANDLED_TAGS`
entry looks up `DT_STRTAB` in the owning table — its absence turns the
`KeyError` into a raised `ELFError` — and computes the string's stream
offset through `handledTagOffset`, whose missing-segment failure is the
other `ELFError`; a `_REL_TAGS` entry resolves through `resolveRelTag`
(missing size companion raises `ELFError`); a `DT_SYMTAB` entry looks up
`DT_STRTAB`, locates its segment (`ELFError` when either is missing) and
builds the `DynamicSymbols` state; every other tag resolves to nothing.
Companion lookups go through `Dynamic.__getitem__`; only scan results are
ever cached, so the cache-free `lookupScan` returns the same entry as the
cached path and the cache affects only how many records are parsed. -/
def mkDynamicTag (e : ELFCtx) (d : DynStream) (lf : Nat) (entry : DynEntry) :
    Option (Except PyErr ResolvedAttr) :=
  if isHandledTag entry.d_tag then
    match lookupScan d DTag.DT_STRTAB 0 lf with
    | none => none
    | some (Except.error _) => some (Except.error PyErr.elfError)
    | some (Except.ok se) =>
        match handledTagOffset e se.d_ptr entry.d_ptr with
        | Except.error _ => some (Except.error PyErr.elfError)
        | Except.ok off => some (Except.ok (ResolvedAttr.strO off))
  else if isRelTag entry.d_tag then
    match resolveRelTag e d lf entry with
    | none => none
    | some (Except.error _) => some (Except.error PyErr.elfError)
    | some (Except.ok (rs, dr)) => some (Except.ok (ResolvedAttr.relo rs dr))
  else if entry.d_tag = DTag.DT_SYMTAB then
    match lookupScan d DTag.DT_STRTAB 0 lf with
    | none => none
    | some (Except.error _) => some (Except.error PyErr.elfError)
    | some (Except.ok se) =>
        match getSegmentByAddress e.segments se.d_ptr with
        | none => some (Except.error PyErr.elfError)
        | some dynstr =>
            some (Except.ok (ResolvedAttr.symt (entry.d_ptr - e.loadbase)
              (dynstr.p_offset + (se.d_ptr - e.loadbase - dynstr.p_vaddr))))
  else some (Except.ok ResolvedAttr.plain)

/-- Loop of `Dynamic.num_tags` (dynamic.py lines 226-230): each iteration is
a `get_tag` call — parse the entry at the next index and eagerly construct
its `DynamicTag`, a resolution failure raising out of `num_tags` — and the
loop returns `n + 1` when the entry at `n` is `DT_NULL`. -/
def numTagsScan (e : ELFCtx) (d : DynStream) (lf : Nat) :
    Nat → Nat → Option (Except PyErr Nat)
  | _, 0 => none
  | j, fuel+1 =>
      match mkDynamicTag e d lf (d j) with
      | none => none
      | some (Except.error err) => some (Except.error err)
      | some (Except.ok _) =>
          if (d j).d_tag = DTag.DT_NULL then some (Except.ok (j+1))
          else numTagsScan e d lf (j+1) fuel

/-- Number of entries the `num_tags` loop itself parses within the given
fuel (the nested companion lookups inside `DynamicTag` construction read
further records; this counts the loop's own `get_tag` calls, the last one
being either the `DT_NULL` read or the one whose resolution raised). -/
def numTagsReads (e : ELFCtx) (d : DynStream) (lf : Nat) : Nat → Nat → Nat
  | _, 0 => 0
  | j, fuel+1 =>
      match mkDynamicTag e d lf (d j) with
      | none => 1
      | some (Except.error _) => 1
      | some (Except.ok _) =>
          if (d j).d_tag = DTag.DT_NULL then 1
          else 1 + numTagsReads e d lf (j+1) fuel

/-- Call of `Dynamic.num_tags` with its `_num_tags` cache made explicit
(`none` models the initial `-1`): a cached value is returned with no
parsing at all; otherwise the scan loop runs — a raised resolution error
propagates and leaves the cache unset, a normal return caches the count.
Returns the result, the updated cache and the loop's parse count. -/
def numTagsCall (e : ELFCtx) (d : DynStream) (cache : Option Nat) (lf fuel : Nat) :
    Option (Except PyErr Nat) × Option Nat × Nat :=
  match cache with
  | some v => (some (Except.ok v), some v, 0)
  | none =>
      match numTagsScan e d lf 0 fuel with
      | none => (none, none, numTagsReads e d lf 0 fuel)
      | some (Except.error err) =>
          (some (Except.error err), none, numTagsReads e d lf 0 fuel)
      | some (Except.ok v) =>
          (some (Except.ok v), some v, numTagsReads e d lf 0 fuel)

/-- Loop of `Dynamic.iter_tags` with no `type` filter (dynamic.py lines
200-208): each iteration is a `get_tag` call — parse the entry at the next
index and eagerly construct its `DynamicTag`, a resolution failure raising
out of the generator — then yield the tag, stopping after yielding the
`DT_NULL` entry.  The embedding returns the whole yielded sequence, or the
error that interrupted the iteration. -/
def iterTagsE (e : ELFCtx) (d : DynStream) (lf : Nat) :
    Nat → Nat → Option (Except PyErr (List (DynEntry × ResolvedAttr)))
  | _, 0 => none
  | j, fuel+1 =>
      match mkDynamicTag e d lf (d j) with
      | none => none
      | some (Except.error err) => some (Except.error err)
      | some (Except.ok attr) =>
          if (d j).d_tag = DTag.DT_NULL then some (Except.ok [(d j, attr)])
          else
            match iterTagsE e d lf (j+1) fuel with
            | none => none
            | some (Except.error err) => some (Except.error err)
            | some (Except.ok rest) => some (Except.ok ((d j, attr) :: rest))

/-- Body of the per-relocation GOT read (coreplt.py lines 68-78): look up the
segment covering `r_offset + loadbase`; when `get_segment_by_address`
returns `None` the very next subscript `seg['p_offset']` raises `TypeError`,
so the embedding returns that error; otherwise read the pointer-sized GOT
value at `p_offset + (r_offset - p_vaddr)` through `mem`, which models
seeking `elffile.stream` and unpacking the little-endian word. -/
def processReloc (e : ELFCtx) (mem : Int → Int) (r : RelocR) : Except PyErr Int :=
  match getSegmentByAddress e.segments (r.r_offset + e.loadbase) with
  | none => Except.error PyErr.typeError
  | some s => Except.ok (mem (s.p_offset + (r.r_offset - s.p_vaddr)))

/-- Relocation loop of the hook detector: the loop body has no exception
handler, so an error raised while processing one relocation propagates and
ends the whole run; later relocations are not reached. -/
def relocLoop (e : ELFCtx) (mem : Int → Int) : List RelocR → Except PyErr (List Int)
  | [] => Except.ok []
  | r :: rs =>
      match processReloc e mem r with
      | Except.error err => Except.error err
      | Except.ok v =>
          match relocLoop e mem rs with
          | Except.error err => Except.error err
          | Except.ok vs => Except.ok (v :: vs)

/-- Parsed memory-map region: start address, end address and the raw
three-character permission string captured by the regular expression. -/
structure Mapping where
  mstart : Int
  mstop : Int
  prot : String
deriving DecidableEq

/-- PLT relocation after the GOT read: the relocation's fields together with
the observed target (`fnaddr`) and the name of the symbol at
`r_info_sym`. -/
structure ResolvedReloc where
  r_offset : Int
  r_info_sym : Int
  fnaddr : Int
  symName : String
deriving DecidableEq

/-- Region test of coreplt.py line 86:
`start <= fnaddr and end > fnaddr and prot == 'rwx'`. -/
def regionHit (m : Mapping) (a : Int) : Bool :=
  decide (m.mstart ≤ a) && decide (m.mstop > a) && (m.prot == "rwx")

/-- Assignment `hooks[fnaddr] = name` on the Python dict, modelled as an
association list: an existing key is overwritten in place, a new key is
appended. -/
def dictInsert : List (Int × String) → Int → String → List (Int × String)
  | [], k, v => [(k, v)]
  | (k0, v0) :: rest, k, v =>
      if k0 = k then (k, v) :: rest else (k0, v0) :: dictInsert rest k v

/-- Lookup in the `hooks` dict. -/
def dictLookup : List (Int × String) → Int → Option String
  | [], _ => none
  | (k0, v0) :: rest, k => if k0 = k then some v0 else dictLookup rest k

/-- Inner mapping scan for one relocation (coreplt.py lines 85-91): walk the
supplied regions and, for each one containing the observed target with
permission string exactly `rwx`, assign `hooks[fnaddr] = symbol name`. -/
def hookScanOne (maps : List Mapping) (hooks : List (Int × String))
    (r : ResolvedReloc) : List (Int × String) :=
  maps.foldl
    (fun h m => if regionHit m r.fnaddr then dictInsert h r.fnaddr r.symName else h)
    hooks

/-- Hook scan over all PLT relocations of a segment, starting from the empty
`hooks` dict; the final dict is what the output loop (coreplt.py lines
99-100) prints, one `!address:name` line per dict entry. -/
def hookScan (maps : List Mapping) (rs : List ResolvedReloc) : List (Int × String) :=
  rs.foldl (hookScanOne maps) []

/-- Character class `\d` of the mapping regex (ASCII). -/
def isDigitC (c : Char) : Bool := '0' ≤ c && c ≤ '9'

/-- Character class `[0-9a-f]` of the mapping regex. -/
def isHexC (c : Char) : Bool := isDigitC c || ('a' ≤ c && c ≤ 'f')

/-- Character class `\s` of the mapping regex (ASCII whitespace). -/
def isSpaceC (c : Char) : Bool :=
  c == ' ' || c == '\t' || c == '\n' || c == '\x0b' || c == '\x0c' || c == '\r'

/-- Value of one hexadecimal digit. -/
def hexVal (c : Char) : Nat :=
  if isDigitC c then c.toNat - '0'.toNat else c.toNat - 'a'.toNat + 10

/-- Value of a hex-digit string, as computed by `int(group, 16)` on the
captured `0x...` group. -/
def parseHexNum (ds : List Char) : Int :=
  (ds.foldl (fun a c => a * 16 + hexVal c) 0 : Nat)

/-- Matcher for `re.match` with the pattern of coreplt.py lines 18-19:
`^\s*\d+\s+(0x[0-9a-f]+)\s+(0x[0-9a-f]+)\s+((?:r|-)(?:w|-)(?:x|-))`, applied
to one stdin line; trailing text is ignored.  Every character class here is
disjoint from the class that follows it, so the greedy non-backtracking
translation is equivalent to the regex.  Returns the two parsed addresses
and the three-character permission group, or `none` when the line does not
match. -/
def matchMapLine (l : List Char) : Option (Int × Int × String) :=
  let l0 := l.dropWhile isSpaceC
  let ds := l0.takeWhile isDigitC
  if ds.isEmpty then none else
  let l1 := l0.drop ds.length
  let sp1 := l1.takeWhile isSpaceC
  if sp1.isEmpty then none else
  match l1.drop sp1.length with
  | '0' :: 'x' :: l3 =>
      let h1 := l3.takeWhile isHexC
      if h1.isEmpty then none else
      let l4 := l3.drop h1.length
      let sp2 := l4.takeWhile isSpaceC
      if sp2.isEmpty then none else
      match l4.drop sp2.length with
      | '0' :: 'x' :: l5 =>
          let h2 := l5.takeWhile isHexC
          if h2.isEmpty then none else
          let l6 := l5.drop h2.length
          let sp3 := l6.takeWhile isSpaceC
          if sp3.isEmpty then none else
          match l6.drop sp3.length with
          | p1 :: p2 :: p3 :: _ =>
              if (p1 == 'r' || p1 == '-') && (p2 == 'w' || p2 == '-')
                  && (p3 == 'x' || p3 == '-') then
                some (parseHexNum h1, parseHexNum h2, String.mk [p1, p2, p3])
              else none
          | _ => none
      | _ => none
  | _ => none

/-- Mapping-parse loop of coreplt.py lines 17-21: for each stdin line, run
the regex and immediately call `m.groups()`; when the line did not match,
`m` is `None` and the attribute access raises `AttributeError`, ending the
run.  On success the parsed triple is appended and the loop continues. -/
def readMappings : List (List Char) → Except PyErr (List (Int × Int × String))
  | [] => Except.ok []
  | l :: ls =>
      match matchMapLine l with
      | none => Except.error PyErr.attributeError
      | some t =>
          match readMappings ls with
          | Except.error err => Except.error err
          | Except.ok ts => Except.ok (t :: ts)

/-- Concrete image context: no load bias, one loadable segment mapping
virtual addresses `[0x1000, 0x1100)` to file offsets starting at `0x500`,
64-bit relocation record sizes. -/
def e3 : ELFCtx := ⟨0, 0, [⟨0x1000, 0x500, 0x100⟩], 24, 16⟩

/-- Concrete GOT memory: every pointer-sized read yields `0x7777`. -/
def memC : Int → Int := fun _ => 0x7777

/-- Concrete relocation-record stream that records the offset it was read
from, so theorems can state where a read happened. -/
def recStream : Int → RelocR := fun off => ⟨off, 0⟩

/-- Concrete relocation table: base `0x1000`, byte size 48, 24-byte
records. -/
def relC : DynRel := ⟨0x1000, 48, 24⟩

/-- Concrete relocation table whose byte size 50 is not a multiple of the
24-byte record size. -/
def relOdd : DynRel := ⟨0x1000, 50, 24⟩

/-- Concrete dynamic table containing `DT_JMPREL`, a `DT_PLTREL` entry whose
value 17 is the numeric `DT_REL` tag (declaring REL-shaped PLT relocations),
the `DT_PLTRELSZ` size companion, and the terminator. -/
def T4 : DynStream := fun n =>
  if n = 0 then ⟨DTag.DT_JMPREL, 0x3000⟩
  else if n = 1 then ⟨DTag.DT_PLTREL, 17⟩
  else if n = 2 then ⟨DTag.DT_PLTRELSZ, 48⟩
  else ⟨DTag.DT_NULL, 0⟩

/-- Concrete memory map with a single `rwx` region `[0x1000, 0x3000)`. -/
def maps1 : List Mapping := [⟨0x1000, 0x3000, "rwx"⟩]

/-- Concrete memory map with a single `r-x` region `[0x1000, 0x3000)`. -/
def mapsRX : List Mapping := [⟨0x1000, 0x3000, "r-x"⟩]

/-- Concrete resolved PLT relocation whose GOT slot points at `0x2000`. -/
def r1c : ResolvedReloc := ⟨0x4000, 1, 0x2000, "foo"⟩

/-- Concrete second resolved PLT relocation, distinct from `r1c` but whose
GOT slot holds the same target `0x2000`. -/
def r2c : ResolvedReloc := ⟨0x4008, 2, 0x2000, "bar"⟩

/-- Concrete well-formed mapping line and a line of the wrong shape. -/
def goodLine : List Char := "0 0x1000 0x2000 rwx".data

/-- Concrete stdin line that does not match the mapping regex. -/
def badLine : List Char := "garbage".data

/-- Concrete two-entry dynamic table both of whose entries are outside the
special tag sets (`DT_STRTAB` itself resolves to nothing in
`DynamicTag.__init__`), so every eager `DynamicTag` construction
succeeds. -/
def dPlain : DynStream := fun n =>
  if n = 0 then ⟨DTag.DT_STRTAB, 0x1000⟩ else ⟨DTag.DT_NULL, 0⟩

theorem scanNull_eq (d : DynStream) (k : Nat)
    (h1 : (d k).d_tag = DTag.DT_NULL)
    (h2 : ∀ i, i < k → (d i).d_tag ≠ DTag.DT_NULL) :
    ∀ fuel j, j ≤ k → k < j + fuel → scanNull d j fuel = some k := by
  intro fuel
  induction fuel with
  | zero => intro j hj hf; omega
  | succ f ih =>
      intro j hj hf
      by_cases hjk : j = k
      · subst hjk; simp [scanNull, h1]
      · have hlt : j < k := lt_of_le_of_ne hj hjk
        have hne : (d j).d_tag ≠ DTag.DT_NULL := h2 j hlt
        simp only [scanNull, if_neg hne]
        exact ih (j+1) hlt (by omega)

theorem scanNullReads_eq (d : DynStream) (k : Nat)
    (h1 : (d k).d_tag = DTag.DT_NULL)
    (h2 : ∀ i, i < k → (d i).d_tag ≠ DTag.DT_NULL) :
    ∀ fuel j, j ≤ k → k < j + fuel → scanNullReads d j fuel = k + 1 - j := by
  intro fuel
  induction fuel with
  | zero => intro j hj hf; omega
  | succ f ih =>
      intro j hj hf
      by_cases hjk : j = k
      · subst hjk; simp [scanNullReads, h1]
      · have hlt : j < k := lt_of_le_of_ne hj hjk
        have hne : (d j).d_tag ≠ DTag.DT_NULL := h2 j hlt
        simp only [scanNullReads, if_neg hne]
        rw [ih (j+1) hlt (by omega)]
        omega

theorem scanNullReads_noNull (d : DynStream)
    (h : ∀ i, (d i).d_tag ≠ DTag.DT_NULL) :
    ∀ fuel j, scanNullReads d j fuel = fuel := by
  intro fuel
  induction fuel with
  | zero => intro j; rfl
  | succ f ih =>
      intro j
      simp only [scanNullReads, if_neg (h j)]
      rw [ih (j+1)]
      omega

theorem mkDynamicTag_null (e : ELFCtx) (d : DynStream) (lf : Nat) (ent : DynEntry)
    (h : ent.d_tag = DTag.DT_NULL) :
    mkDynamicTag e d lf ent = some (Except.ok ResolvedAttr.plain) := by
  simp [mkDynamicTag, h, isHandledTag, isRelTag]

theorem numTagsScan_eq (e : ELFCtx) (d : DynStream) (k lf : Nat)
    (h1 : (d k).d_tag = DTag.DT_NULL)
    (h2 : ∀ i, i < k → (d i).d_tag ≠ DTag.DT_NULL)
    (hres : ∀ i, i ≤ k → ∃ a, mkDynamicTag e d lf (d i) = some (Except.ok a)) :
    ∀ fuel j, j ≤ k → k < j + fuel →
      numTagsScan e d lf j fuel = some (Except.ok (k+1)) := by
  intro fuel
  induction fuel with
  | zero => intro j hj hf; omega
  | succ f ih =>
      intro j hj hf
      obtain ⟨a, ha⟩ := hres j hj
      by_cases hjk : j = k
      · subst hjk
        simp [numTagsScan, ha, h1]
      · have hlt : j < k := lt_of_le_of_ne hj hjk
        have hne : (d j).d_tag ≠ DTag.DT_NULL := h2 j hlt
        simp only [numTagsScan, ha]
        rw [if_neg hne]
        exact ih (j+1) hlt (by omega)

theorem numTagsReads_eq (e : ELFCtx) (d : DynStream) (k lf : Nat)
    (h1 : (d k).d_tag = DTag.DT_NULL)
    (h2 : ∀ i, i < k → (d i).d_tag ≠ DTag.DT_NULL)
    (hres : ∀ i, i ≤ k → ∃ a, mkDynamicTag e d lf (d i) = some (Except.ok a)) :
    ∀ fuel j, j ≤ k → k < j + fuel → numTagsReads e d lf j fuel = k + 1 - j := by
  intro fuel
  induction fuel with
  | zero => intro j hj hf; omega
  | succ f ih =>
      intro j hj hf
      obtain ⟨a, ha⟩ := hres j hj
      by_cases hjk : j = k
      · subst hjk
        simp only [numTagsReads, ha, if_pos h1]
        omega
      · have hlt : j < k := lt_of_le_of_ne hj hjk
        have hne : (d j).d_tag ≠ DTag.DT_NULL := h2 j hlt
        simp only [numTagsReads, ha]
        rw [if_neg hne, ih (j+1) hlt (by omega)]
        omega

theorem iterTagsE_eq (e : ELFCtx) (d : DynStream) (k lf : Nat)
    (h1 : (d k).d_tag = DTag.DT_NULL)
    (h2 : ∀ i, i < k → (d i).d_tag ≠ DTag.DT_NULL)
    (hres : ∀ i, i ≤ k → ∃ a, mkDynamicTag e d lf (d i) = some (Except.ok a)) :
    ∀ fuel j, j ≤ k → k < j + fuel →
      ∃ l, iterTagsE e d lf j fuel = some (Except.ok l) ∧
        l.length = k + 1 - j ∧ ∃ pre, l = pre ++ [(d k, ResolvedAttr.plain)] := by
  intro fuel
  induction fuel with
  | zero => intro j hj hf; omega
  | succ f ih =>
      intro j hj hf
      by_cases hjk : j = k
      · subst hjk
        refine ⟨[(d j, ResolvedAttr.plain)], ?_, ?_, [], rfl⟩
        · simp [iterTagsE, mkDynamicTag_null e d lf (d j) h1, h1]
        · simp only [List.length_singleton]
          omega
      · have hlt : j < k := lt_of_le_of_ne hj hjk
        have hne : (d j).d_tag ≠ DTag.DT_NULL := h2 j hlt
        obtain ⟨a, ha⟩ := hres j hj
        obtain ⟨l', hl', hlen', pre', hpre'⟩ := ih (j+1) hlt (by omega)
        refine ⟨(d j, a) :: l', ?_, ?_, (d j, a) :: pre', ?_⟩
        · simp only [iterTagsE, ha]
          rw [if_neg hne, hl']
        · simp only [List.length_cons, hlen']
          omega
        · rw [hpre']
          rfl

/-- C7 (amended): for a dynamic table whose first `DT_NULL` entry sits at
index `k` and each of whose entries up to and including the terminator the
eager `DynamicTag` construction inside `get_tag` resolves without raising,
`num_tags()` returns `k + 1` (the index of the NULL entry plus one), caches
that value so that a second call parses zero records, and the unfiltered
`iter_tags()` yields exactly `num_tags()` entries, the last of which is the
NULL terminator entry; on a NULL-terminated table where some entry fails to
resolve (for example `DT_NEEDED` with no `DT_STRTAB`), both calls instead
raise `ELFError`. -/
theorem numTags_iterTags_spec (e : ELFCtx) (d : DynStream) (k lf fuel : Nat)
    (h1 : (d k).d_tag = DTag.DT_NULL)
    (h2 : ∀ i, i < k → (d i).d_tag ≠ DTag.DT_NULL)
    (h3 : k < fuel)
    (hres : ∀ i, i ≤ k → ∃ a, mkDynamicTag e d lf (d i) = some (Except.ok a)) :
    numTagsCall e d none lf fuel = (some (Except.ok (k+1)), some (k+1), k+1) ∧
    numTagsCall e d (some (k+1)) lf fuel = (some (Except.ok (k+1)), some (k+1), 0) ∧
    ∃ l, iterTagsE e d lf 0 fuel = some (Except.ok l) ∧
      l.length = k+1 ∧ l.getLast? = some (d k, ResolvedAttr.plain) := by
  have hs := numTagsScan_eq e d k lf h1 h2 hres fuel 0 (Nat.zero_le k) (by omega)
  have hr := numTagsReads_eq e d k lf h1 h2 hres fuel 0 (Nat.zero_le k) (by omega)
  obtain ⟨l, hl, hlen, pre, hpre⟩ :=
    iterTagsE_eq e d k lf h1 h2 hres fuel 0 (Nat.zero_le k) (by omega)
  refine ⟨?_, rfl, l, hl, by simpa using hlen, ?_⟩
  · simp [numTagsCall, hs, hr]
  · rw [hpre]
    exact List.getLast?_concat pre

theorem numTags_iterTags_witness :
    numTagsCall e3 dPlain none 5 5 = (some (Except.ok 2), some 2, 2) ∧
    numTagsCall e3 dPlain (some 2) 5 5 = (some (Except.ok 2), some 2, 0) ∧
    ∃ l, iterTagsE e3 dPlain 5 0 5 = some (Except.ok l) ∧
      l.length = 2 ∧ l.getLast? = some (⟨DTag.DT_NULL, 0⟩, ResolvedAttr.plain) :=
  numTags_iterTags_spec e3 dPlain 1 5 5 (by decide) (by decide) (by decide)
    (fun i hi => by
      have h01 : i = 0 ∨ i = 1 := by omega
      rcases h01 with h | h <;> subst h
      · exact ⟨ResolvedAttr.plain, rfl⟩
      · exact ⟨ResolvedAttr.plain, rfl⟩)

/-- C7 (counterexample): the table `dW = [DT_NEEDED, DT_NULL]` is
well-formed in the claim's sense — its NULL terminator sits at index 1 — yet
`num_tags()` does not return 2 and `iter_tags()` does not yield 2 entries:
`get_tag(0)` eagerly constructs the `DynamicTag` for the `DT_NEEDED` entry,
whose `DT_STRTAB` lookup hits the terminator first, so the constructor
raises `ELFError` out of both calls after a single loop iteration, leaving
the count uncached. -/
theorem numTags_counterexample :
    (dW 1).d_tag = DTag.DT_NULL ∧
    numTagsCall e3 dW none 10 10 = (some (Except.error PyErr.elfError), none, 1) ∧
    iterTagsE e3 dW 10 0 10 = some (Except.error PyErr.elfError) := by
  refine ⟨rfl, rfl, rfl⟩

/-- C8 (amended): the tag scan never reads past the `DT_NULL` terminator —
when the first NULL sits at index `k` it parses exactly `k + 1` records no
matter how much fuel is available — but there is no defensive iteration cap:
on a stream with no NULL terminator the scan consumes every iteration bound
it is given (`itertools.count()` in the source is unbounded), instead of
stopping at the containing segment's byte size divided by the record
size. -/
theorem scanNullReads_spec :
    (∀ (d : DynStream) (k fuel : Nat), (d k).d_tag = DTag.DT_NULL →
      (∀ i, i < k → (d i).d_tag ≠ DTag.DT_NULL) → k < fuel →
      scanNullReads d 0 fuel = k + 1) ∧
    (∀ (d : DynStream) (fuel : Nat), (∀ i, (d i).d_tag ≠ DTag.DT_NULL) →
      scanNullReads d 0 fuel = fuel) := by
  constructor
  · intro d k fuel h1 h2 h3
    have := scanNullReads_eq d k h1 h2 fuel 0 (Nat.zero_le k) (by omega)
    simpa using this
  · intro d fuel h
    exact scanNullReads_noNull d h fuel 0

theorem dynNoNull_not_null : ∀ i, (dynNoNull i).d_tag ≠ DTag.DT_NULL :=
  fun _ h => nomatch h

theorem scanNullReads_spec_witness :
    scanNullReads dW 0 5 = 2 ∧ scanNullReads dynNoNull 0 7 = 7 :=
  ⟨scanNullReads_spec.1 dW 1 5 (by decide) (by decide) (by decide),
   scanNullReads_spec.2 dynNoNull 7 dynNoNull_not_null⟩

/-- C8 (counterexample): on a table stream with no `DT_NULL` terminator
inside a segment of byte size 32 with 16-byte `Elf_Dyn` records — so the
claimed defensive cap would be 32 / 16 = 2 iterations — the scan loop of
`num_tags` performs 100 record reads when given 100 iterations of fuel: the
traversal is not capped at the segment's byte size divided by the record
size. -/
theorem scan_uncapped_counterexample :
    scanNullReads dynNoNull 0 100 = 100 ∧
    ¬ (scanNullReads dynNoNull 0 100 ≤ 32 / 16) := by
  constructor
  · exact scanNullReads_noNull dynNoNull dynNoNull_not_null 100 0
  · intro h
    rw [scanNullReads_noNull dynNoNull dynNoNull_not_null 100 0] at h
    omega

theorem lookupScan_null (d : DynStream) (k : Nat)
    (h1 : (d k).d_tag = DTag.DT_NULL)
    (h2 : ∀ i, i < k → (d i).d_tag ≠ DTag.DT_NULL) :
    ∀ fuel j, j ≤ k → k < j + fuel →
      lookupScan d DTag.DT_NULL j fuel = some (Except.error DTag.DT_NULL) := by
  intro fuel
  induction fuel with
  | zero => intro j hj hf; omega
  | succ f ih =>
      intro j hj hf
      by_cases hjk : j = k
      · subst hjk; simp [lookupScan, h1]
      · have hlt : j < k := lt_of_le_of_ne hj hjk
        have hne : (d j).d_tag ≠ DTag.DT_NULL := h2 j hlt
        simp only [lookupScan, if_neg hne]
        exact ih (j+1) hlt (by omega)

/-- C10: on a dynamic table whose first `DT_NULL` entry sits at index `k`,
looking up `DT_NULL` itself through `Dynamic.__getitem__` always raises
`KeyError`: the scan tests each entry for `DT_NULL` before comparing it
against the requested name, so it breaks at the terminator without ever
matching it; the cache cannot help because only successfully matched names
are ever stored there. -/
theorem lookup_null_keyerror (d : DynStream) (k fuel : Nat) (cache : TagCache)
    (h1 : (d k).d_tag = DTag.DT_NULL)
    (h2 : ∀ i, i < k → (d i).d_tag ≠ DTag.DT_NULL)
    (h3 : k < fuel)
    (h4 : cacheGet cache DTag.DT_NULL = none) :
    lookupTag d cache DTag.DT_NULL fuel = some (Except.error DTag.DT_NULL) := by
  have hscan := lookupScan_null d k h1 h2 fuel 0 (Nat.zero_le k) (by omega)
  simp [lookupTag, h4, hscan]

theorem lookup_null_keyerror_witness :
    lookupTag dW [] DTag.DT_NULL 5 = some (Except.error DTag.DT_NULL) :=
  lookup_null_keyerror dW 1 5 [] (by decide) (by decide) (by decide) rfl

theorem dictLookup_insert (h : List (Int × String)) (k a : Int) (v : String) :
    dictLookup (dictInsert h k v) a = if a = k then some v else dictLookup h a := by
  induction h with
  | nil =>
      by_cases hak : a = k
      · subst hak; simp [dictInsert, dictLookup]
      · simp only [dictInsert, dictLookup]
        rw [if_neg (fun hh : k = a => hak hh.symm), if_neg hak]
  | cons hd rest ih =>
      obtain ⟨k0, v0⟩ := hd
      by_cases h0 : k0 = k
      · subst h0
        by_cases hak : a = k0
        · subst hak; simp [dictInsert, dictLookup]
        · simp only [dictInsert, if_pos rfl, dictLookup]
          rw [if_neg (fun hh : k0 = a => hak hh.symm), if_neg hak,
            if_neg (fun hh : k0 = a => hak hh.symm)]
      · simp only [dictInsert, if_neg h0]
        by_cases hk0a : k0 = a
        · have hak : ¬ a = k := fun hh => h0 (hk0a.trans hh)
          simp only [dictLookup, if_pos hk0a, if_neg hak]
        · simp only [dictLookup, if_neg hk0a, ih]

theorem hookScanOne_lookup (maps : List Mapping) (hooks : List (Int × String))
    (r : ResolvedReloc) (a : Int) :
    dictLookup (hookScanOne maps hooks r) a =
      if a = r.fnaddr ∧ maps.any (fun m => regionHit m r.fnaddr) = true
      then some r.symName
      else dictLookup hooks a := by
  induction maps generalizing hooks with
  | nil => simp [hookScanOne]
  | cons m t ih =>
      have hstep : hookScanOne (m :: t) hooks r =
          hookScanOne t
            (if regionHit m r.fnaddr then dictInsert hooks r.fnaddr r.symName else hooks)
            r := rfl
      rw [hstep, ih]
      by_cases hm : regionHit m r.fnaddr
      · rw [if_pos hm, dictLookup_insert]
        by_cases haf : a = r.fnaddr <;> simp [haf, List.any_cons, hm]
      · rw [if_neg hm]
        rw [Bool.not_eq_true] at hm
        simp [List.any_cons, hm]

theorem hookScan_preserve (maps : List Mapping) (rs : List ResolvedReloc)
    (hooks : List (Int × String)) (a : Int)
    (hh : ∃ v, dictLookup hooks a = some v) :
    ∃ v, dictLookup (rs.foldl (hookScanOne maps) hooks) a = some v := by
  induction rs generalizing hooks with
  | nil => exact hh
  | cons r t ih =>
      refine ih (hookScanOne maps hooks r) ?_
      rw [hookScanOne_lookup]
      split_ifs
      · exact ⟨r.symName, rfl⟩
      · exact hh

theorem hookScanOne_id (maps : List Mapping) (hooks : List (Int × String))
    (r : ResolvedReloc)
    (hno : ∀ m, m ∈ maps → regionHit m r.fnaddr = false) :
    hookScanOne maps hooks r = hooks := by
  induction maps generalizing hooks with
  | nil => rfl
  | cons m t ih =>
      have hstep : hookScanOne (m :: t) hooks r =
          hookScanOne t
            (if regionHit m r.fnaddr then dictInsert hooks r.fnaddr r.symName else hooks)
            r := rfl
      rw [hstep, if_neg (by simp [hno m (List.mem_cons_self m t)])]
      exact ih hooks (fun m' hm' => hno m' (List.mem_cons_of_mem m hm'))

theorem hookScan_fold_mem (maps : List Mapping) :
    ∀ (rs : List ResolvedReloc) (hooks : List (Int × String)) (r : ResolvedReloc),
      r ∈ rs → (∃ m, m ∈ maps ∧ regionHit m r.fnaddr = true) →
      ∃ v, dictLookup (rs.foldl (hookScanOne maps) hooks) r.fnaddr = some v := by
  intro rs
  induction rs with
  | nil => intro hooks r hr; cases hr
  | cons r0 t ih =>
      intro hooks r hr hm
      have hstep : (r0 :: t).foldl (hookScanOne maps) hooks =
          t.foldl (hookScanOne maps) (hookScanOne maps hooks r0) := rfl
      rw [hstep]
      rcases List.mem_cons.mp hr with hEq | hMem
      · subst hEq
        refine hookScan_preserve maps t (hookScanOne maps hooks r) r.fnaddr ?_
        rw [hookScanOne_lookup]
        obtain ⟨m, hmm, hhit⟩ := hm
        rw [if_pos ⟨rfl, List.any_eq_true.mpr ⟨m, hmm, hhit⟩⟩]
        exact ⟨r.symName, rfl⟩
      · exact ih (hookScanOne maps hooks r0) r hMem hm

theorem hookScan_fold_id (maps : List Mapping) :
    ∀ (rs : List ResolvedReloc) (hooks : List (Int × String)),
      (∀ r, r ∈ rs → ∀ m, m ∈ maps → regionHit m r.fnaddr = false) →
      rs.foldl (hookScanOne maps) hooks = hooks := by
  intro rs
  induction rs with
  | nil => intro hooks _; rfl
  | cons r0 t ih =>
      intro hooks hno
      have hstep : (r0 :: t).foldl (hookScanOne maps) hooks =
          t.foldl (hookScanOne maps) (hookScanOne maps hooks r0) := rfl
      rw [hstep, hookScanOne_id maps hooks r0 (hno r0 (List.mem_cons_self r0 t))]
      exact ih hooks (fun r hr => hno r (List.mem_cons_of_mem r0 hr))

/-- C1 (amended): the hook scan records candidates in a dictionary keyed by
the observed target address — for every PLT relocation whose GOT value lies
in a supplied region whose permission string is exactly `rwx`, the final
`hooks` dict contains an entry under that target address (so the printed
output has a line for it, carrying the target address and a symbol name, not
the relocation itself; relocations sharing a target collapse into one
entry); and when no supplied region both contains a relocation's target and
carries all three of read, write and execute (e.g. `r-x`), the hooks dict
stays empty. -/
theorem hookScan_spec (maps : List Mapping) (rs : List ResolvedReloc) :
    (∀ r, r ∈ rs → (∃ m, m ∈ maps ∧ regionHit m r.fnaddr = true) →
      ∃ v, dictLookup (hookScan maps rs) r.fnaddr = some v) ∧
    ((∀ r, r ∈ rs → ∀ m, m ∈ maps → regionHit m r.fnaddr = false) →
      hookScan maps rs = []) :=
  ⟨fun r hr hm => hookScan_fold_mem maps rs [] r hr hm,
   fun hno => hookScan_fold_id maps rs [] hno⟩

theorem hookScan_spec_witness :
    (∃ v, dictLookup (hookScan maps1 [r1c]) r1c.fnaddr = some v) ∧
    hookScan mapsRX [r1c] = [] :=
  ⟨(hookScan_spec maps1 [r1c]).1 r1c (by decide)
      ⟨⟨0x1000, 0x3000, "rwx"⟩, by decide, by decide⟩,
   (hookScan_spec mapsRX [r1c]).2 (by decide)⟩

/-- C1 (counterexample): two distinct PLT relocations whose GOT slots hold
the same target address `0x2000`, which lies inside the supplied `rwx`
region, produce a single entry in the `hooks` dict — not one `HookCandidate`
per relocation — and the entry carries only the address and the last
relocation's symbol name, not the relocation. -/
theorem hookScan_counterexample :
    hookScan maps1 [r1c, r2c] = [(0x2000, "bar")] ∧
    ¬ r1c = r2c ∧
    regionHit ⟨0x1000, 0x3000, "rwx"⟩ r1c.fnaddr = true ∧
    regionHit ⟨0x1000, 0x3000, "rwx"⟩ r2c.fnaddr = true := by decide

/-- C2 (code evaluation at the failing input): a PLT relocation whose target
virtual address `0x5000` (plus load bias 0) has no covering segment makes
the whole relocation loop abort with the `TypeError` raised by subscripting
the `None` returned by `get_segment_by_address` — the mapped relocation
after it is never processed — while the same loop over only the mapped
relocation (target `0x1010`) succeeds and reads its GOT value. -/
theorem relocLoop_unmapped_aborts :
    relocLoop e3 memC [⟨0x5000, 1⟩, ⟨0x1010, 2⟩] = Except.error PyErr.typeError ∧
    relocLoop e3 memC [⟨0x1010, 2⟩] = Except.ok [0x7777] ∧
    getSegmentByAddress e3.segments (0x5000 + e3.loadbase) = none := by
  refine ⟨rfl, rfl, rfl⟩

/-- C3 (amended): the string path of `DynamicTag.__init__` does locate the
segment containing the `DT_STRTAB` address (failing when there is none), but
when no load bias is present it then ignores the segment's file offset and
uses the virtual address itself, returning `strtab + d_ptr` as the stream
offset, whatever the containing segment's `file_offset` is — the
segment-relative computation `file_offset + (vaddr - virtual_address_start)`
is applied only on the load-bias branch; the relocation-table base,
likewise, is `raw_value - load_bias` with no segment lookup at all. -/
theorem string_offset_no_bias (e : ELFCtx) (strtab dptr : Int) (s : SegmentM)
    (h0 : e.loadbase = 0)
    (hseg : getSegmentByAddress e.segments strtab = some s) :
    handledTagOffset e strtab dptr = Except.ok (strtab + dptr) ∧
    to_file_offset e.segments strtab = Except.ok (s.p_offset + (strtab - s.p_vaddr)) := by
  constructor
  · unfold handledTagOffset
    rw [hseg]
    simp [h0]
  · unfold to_file_offset
    rw [hseg]

theorem string_offset_no_bias_witness :
    handledTagOffset e3 0x1000 8 = Except.ok 0x1008 ∧
    to_file_offset e3.segments 0x1000 = Except.ok 0x500 :=
  string_offset_no_bias e3 0x1000 8 ⟨0x1000, 0x500, 0x100⟩ rfl (by decide)

/-- C3 (counterexample): with no load bias and a segment mapping virtual
address `0x1000` to file offset `0x500`, the string path of tag resolution
computes stream offset `0x1000` (the virtual address itself) where the
segment-routed translation `file_offset + (vaddr - virtual_address_start)`
gives `0x500`; and the relocation-table path reads its first record at
stream offset `0x1000` (`raw_value - load_bias`) without consulting the
segment list at all.  So not every conversion routes the address through
the segment list. -/
theorem string_offset_counterexample :
    handledTagOffset e3 0x1000 0 = Except.ok 0x1000 ∧
    to_file_offset e3.segments 0x1000 = Except.ok 0x500 ∧
    ¬ ((0x1000 : Int) = 0x500) ∧
    getRelocationRecord recStream (mkDynRel 0x1000 48 24 0) 0 = ⟨0x1000, 0⟩ := by
  refine ⟨rfl, rfl, by decide, rfl⟩

/-- C4 (code evaluation at the failing input): on a dynamic table whose
`DT_PLTREL` entry holds 17 (the numeric `DT_REL` tag, declaring REL-shaped
PLT relocations), resolving `DT_JMPREL` still yields the `Elf_Rela` layout
with its 24-byte records — the source hardcodes `tag = 'DT_RELA'` under a
`FIXME: consult DT_PLTREL` comment — although the size companion is
correctly taken from `DT_PLTRELSZ` (here 48).  The second conjunct shows the
`DT_PLTREL` entry is present and findable in the same table. -/
theorem jmprel_ignores_pltrel :
    resolveRelTag e3 T4 10 ⟨DTag.DT_JMPREL, 0x3000⟩ =
      some (Except.ok (RelStruct.rela, ⟨0x3000, 48, 24⟩)) ∧
    lookupScan T4 DTag.DT_PLTREL 0 10 = some (Except.ok ⟨DTag.DT_PLTREL, 17⟩) := by
  refine ⟨rfl, rfl⟩

/-- C5 (amended): `count()` is the floor of `byte_size / record_size`
(Python 2 integer division) and `iter_relocations()` yields exactly that
many records; a byte size that is not a multiple of the record size is
silently floored, with no malformed-input report — the spec's example
(size tag 48, 24-byte records) does give `count() == 2`. -/
theorem relocation_count_floor (stream : Int → RelocR) (r : DynRel) :
    (iterRelocations stream r).length = (numRelocations r).toNat ∧
    (r.size = 48 → r.recordSize = 24 → numRelocations r = 2) := by
  constructor
  · unfold iterRelocations
    rw [List.length_map, List.length_range]
  · intro h1 h2
    simp only [numRelocations, h1, h2]
    decide

theorem relocation_count_floor_witness :
    (iterRelocations recStream relC).length = 2 ∧ numRelocations relC = 2 :=
  ⟨((relocation_count_floor recStream relC).1).trans (by decide),
   (relocation_count_floor recStream relC).2 rfl rfl⟩

/-- C5 (counterexample): a relocation table whose byte size 50 is not a
multiple of its 24-byte record size still gets `count() == 2` — the division
truncates to the floor and nothing reports the malformed size. -/
theorem numRelocations_counterexample :
    numRelocations relOdd = 2 ∧ ¬ (relOdd.size % relOdd.recordSize = 0) := by
  refine ⟨by decide, by decide⟩

/-- C6 (amended): `get_relocation(n)` performs no bounds check at all — for
every index `n`, including `n >= count()`, it returns (never fails with
`IndexOutOfRange`) the one fixed-size record read at
`base + n * record_size`. -/
theorem getRelocation_no_bounds (stream : Int → RelocR) (r : DynRel) (n : Int)
    (_h : numRelocations r ≤ n) :
    getRelocation stream r n = Except.ok (stream (r.base + n * r.recordSize)) := rfl

theorem getRelocation_no_bounds_witness :
    getRelocation recStream relC 2 = Except.ok ⟨0x1030, 0⟩ :=
  getRelocation_no_bounds recStream relC 2 (by decide)

/-- C6 (counterexample): on the table with `count() == 2`, `get_relocation 2`
(first index past the end) does not fail with `IndexOutOfRange`: it succeeds
and reads the record at `base + 2 * record_size = 0x1030`. -/
theorem getRelocation_counterexample :
    numRelocations relC = 2 ∧
    getRelocation recStream relC 2 = Except.ok ⟨0x1030, 0⟩ := by
  refine ⟨by decide, rfl⟩

/-- C9 (code evaluation at the failing input): with a well-formed mapping
line followed by the line `garbage`, the mapping-parse loop aborts with the
`AttributeError` raised by calling `.groups()` on the `None` match object —
the malformed line is fatal, not skipped — while the same loop over only the
well-formed line parses it. -/
theorem readMappings_malformed_aborts :
    readMappings [goodLine, badLine] = Except.error PyErr.attributeError ∧
    matchMapLine badLine = none ∧
    readMappings [goodLine] = Except.ok [(0x1000, 0x2000, "rwx")] := by
  refine ⟨rfl, rfl, rfl⟩
